import Mathlib

/-!
Verification model of the sizer image-resizer core (src/main.js).

JavaScript numbers are modelled exactly: a rational for finite values plus
the non-finite values NaN, Infinity, -Infinity, and a separate value for
reading an absent object property (undefined).  Fallible or branching JS
idioms (truthiness, the logical-or defaulting pattern) are modelled by
explicit functions.  The reactive state of the application is a record, and
each operation of the program is a pure state transformer.
-/

/-- A JavaScript number as it matters to this program: an exact rational,
one of the non-finite values, or the result of reading an absent property. -/
inductive JSNum where
  | finite (q : ℚ)
  | nan
  | inf
  | ninf
  | undef
deriving DecidableEq, Repr

/-- JS Math.round on a finite value: floor of q + 1/2 (halves toward +∞). -/
def jsRound (q : ℚ) : ℤ := Int.floor (q + 1/2)

/-- JS truthiness of a number: 0, NaN and undefined are falsy. -/
def jsTruthy : JSNum → Bool
  | .finite q => q != 0
  | .nan => false
  | .inf => true
  | .ninf => true
  | .undef => false

/-- JS (a || b) for numbers. -/
def jsNumOr (a b : JSNum) : JSNum := if jsTruthy a then a else b

/-- JS (v || d) for a possibly absent string: undefined and "" are falsy. -/
def jsStrOr (v : Option String) (d : String) : String :=
  match v with
  | none => d
  | some s => if s = "" then d else s

/-- Reading a possibly absent JS property as a number (absent = undefined). -/
def propNum (v : Option JSNum) : JSNum := v.getD JSNum.undef

/-- clampDimension (src/main.js lines 55-58): 1 for non-finite input, else
Math.min(Math.max(Math.round(value), 1), 8000). -/
def clampDimension : JSNum → ℤ
  | .finite q => min (max (jsRound q) 1) 8000
  | _ => 1

/-- A decoded source image (the width/height read off an Image element). -/
structure SrcImage where
  width : ℚ
  height : ℚ
deriving DecidableEq, Repr

/-- A stored preset.  Fields other than the name are optional because a
preset read back from storage may have been written by an older schema
version that lacked them; the object built by savePreset always has all of
them.  The source stores no fit mode in a preset. -/
structure Preset where
  name : String
  width : Option JSNum
  height : Option JSNum
  format : Option String
  backgroundMode : Option String
  backgroundColor : Option String
deriving DecidableEq, Repr

/-- The reactive state of the application (the refs of src/main.js setup). -/
structure AppState where
  imageLoaded : Bool
  srcImage : Option SrcImage
  srcWidth : ℚ
  srcHeight : ℚ
  srcName : String
  targetWidth : JSNum
  targetHeight : JSNum
  targetFormat : String
  aspectMode : String
  backgroundMode : String
  backgroundColor : String
  isPickingColor : Bool
  presetName : String
  presets : List Preset
deriving DecidableEq, Repr

/-- The preset object constructed by savePreset (src/main.js lines 262-269). -/
def mkPreset (s : AppState) (name : String) : Preset :=
  { name := name
    width := some (JSNum.finite (clampDimension s.targetWidth))
    height := some (JSNum.finite (clampDimension s.targetHeight))
    format := some s.targetFormat
    backgroundMode := some s.backgroundMode
    backgroundColor := some s.backgroundColor }

/-- savePreset (src/main.js lines 258-280): no-op when the trimmed name is
empty; otherwise replace the first preset with the same name in place
(findIndex + splice), else append; then clear the name field. -/
def savePreset (s : AppState) : AppState :=
  let name := s.presetName.trim
  if name = "" then s
  else
    let preset := mkPreset s name
    let newPresets :=
      match s.presets.findIdx? (fun p => p.name == name) with
      | some i => s.presets.set i preset
      | none => s.presets ++ [preset]
    { s with presets := newPresets, presetName := "" }

/-- applyPreset (src/main.js lines 282-291): the state assignments; the
trailing renderCanvas() call is modelled separately by renderCanvas. -/
def applyPreset (s : AppState) (preset : Option Preset) : AppState :=
  match preset with
  | none => s
  | some p =>
    { s with
      targetWidth := JSNum.finite (clampDimension (propNum p.width))
      targetHeight := JSNum.finite (clampDimension (propNum p.height))
      targetFormat := jsStrOr p.format "image/png"
      backgroundMode := jsStrOr p.backgroundMode "transparent"
      backgroundColor := jsStrOr p.backgroundColor "#ffffff"
      isPickingColor := false }

/-- deletePreset (src/main.js lines 293-296): keep the presets whose name
differs from the given preset's name. -/
def deletePreset (s : AppState) (preset : Preset) : AppState :=
  { s with presets := s.presets.filter (fun p => p.name != preset.name) }

/-- formatExtension (src/main.js lines 298-309). -/
def formatExtension (format : String) : String :=
  if format = "image/png" then "png"
  else if format = "image/jpeg" then "jpg"
  else if format = "image/webp" then "webp"
  else "img"

/-- The replace of src/main.js line 326: drop a final dot followed by one or
more non-dot characters; equivalently, drop the last dot-separated part when
there are at least two parts and the last one is non-empty. -/
def stripExtension (name : String) : String :=
  let parts := name.splitOn "."
  if 2 ≤ parts.length ∧ parts.getLastD "" ≠ "" then
    String.intercalate "." parts.dropLast
  else name

/-- The geometry of the single drawImage call of renderCanvas. -/
structure DrawGeom where
  drawWidth : ℚ
  drawHeight : ℚ
  offsetX : ℚ
  offsetY : ℚ
deriving DecidableEq, Repr

/-- What one renderCanvas call does: the state written back (the clamped
target dimensions), the physical surface size, the background fill if any,
the image-draw geometry if an image was drawn, and whether the 1px preview
border was stroked. -/
structure RenderResult where
  newState : AppState
  surfaceW : ℚ
  surfaceH : ℚ
  bgFill : Option String
  draw : Option DrawGeom
  borderDrawn : Bool
deriving DecidableEq, Repr

/-- renderCanvas (src/main.js lines 163-213).  The early return when the
canvas element is absent (line 164) does nothing and is not modelled. -/
def renderCanvas (s : AppState) (dpr : ℚ) (forExport : Bool) : RenderResult :=
  let width := clampDimension
    (jsNumOr s.targetWidth (jsNumOr (JSNum.finite s.srcWidth) (JSNum.finite 1)))
  let height := clampDimension
    (jsNumOr s.targetHeight (jsNumOr (JSNum.finite s.srcHeight) (JSNum.finite 1)))
  let s1 := { s with
    targetWidth := JSNum.finite (width : ℚ)
    targetHeight := JSNum.finite (height : ℚ) }
  let bgFill := if s.backgroundMode = "color"
    then some (if s.backgroundColor = "" then "#ffffff" else s.backgroundColor)
    else none
  match s.srcImage with
  | none =>
    { newState := s1, surfaceW := (width : ℚ) * dpr, surfaceH := (height : ℚ) * dpr,
      bgFill := bgFill, draw := none, borderDrawn := false }
  | some img =>
    let sw := if s.srcWidth = 0 then img.width else s.srcWidth
    let sh := if s.srcHeight = 0 then img.height else s.srcHeight
    if sw = 0 ∨ sh = 0 then
      { newState := s1, surfaceW := (width : ℚ) * dpr, surfaceH := (height : ℚ) * dpr,
        bgFill := bgFill, draw := none, borderDrawn := false }
    else
      let scaleFit := min ((width : ℚ) / sw) ((height : ℚ) / sh)
      let scaleFill := max ((width : ℚ) / sw) ((height : ℚ) / sh)
      let scale := if s.aspectMode = "fill" then scaleFill else scaleFit
      let drawWidth := sw * scale
      let drawHeight := sh * scale
      let offsetX := ((width : ℚ) - drawWidth) / 2
      let offsetY := ((height : ℚ) - drawHeight) / 2
      { newState := s1, surfaceW := (width : ℚ) * dpr, surfaceH := (height : ℚ) * dpr,
        bgFill := bgFill,
        draw := some { drawWidth := drawWidth, drawHeight := drawHeight,
                       offsetX := offsetX, offsetY := offsetY },
        borderDrawn := !forExport }

/-- What one downloadImage call hands to the encoder and download trigger. -/
structure ExportResult where
  render : RenderResult
  exportW : ℤ
  exportH : ℤ
  filename : String
  mime : String
  quality : Option ℚ
deriving DecidableEq, Repr

/-- downloadImage (src/main.js lines 311-365): guard on a loaded image,
re-render for export, size the export canvas to the clamped dimensions with
no density multiplier, and build the download filename.  The DOM and blob
plumbing is out of scope. -/
def downloadImage (s : AppState) (dpr : ℚ) : Option ExportResult :=
  if s.imageLoaded = true then
    let r := renderCanvas s dpr true
    let width := clampDimension r.newState.targetWidth
    let height := clampDimension r.newState.targetHeight
    let mime := if s.targetFormat = "" then "image/png" else s.targetFormat
    let isJpegLike := mime = "image/jpeg" ∨ mime = "image/jpg" ∨ mime = "image/webp"
    let quality := if isJpegLike then some (92 / 100 : ℚ) else none
    let originalName := if s.srcName = "" then "image" else s.srcName
    let base := stripExtension originalName
    let filename :=
      (if base = "" then "image" else base) ++ "-" ++ toString width ++ "x" ++
        toString height ++ "." ++ formatExtension mime
    some { render := r, exportW := width, exportH := height,
           filename := filename, mime := mime, quality := quality }
  else none

/-- A JSON value, for modelling what JSON.parse can yield. -/
inductive Json where
  | null
  | bool (b : Bool)
  | num (q : ℚ)
  | str (s : String)
  | arr (elems : List Json)
  | obj (fields : List (String × Json))

/-- loadPresets (src/main.js lines 60-71): read the stored string, return
early when it is absent or empty (falsy), parse it — parse stands for
JSON.parse and yields none when it would throw — and assign the result to
the collection only when it is an array; every other outcome leaves the
current collection (empty at session start) untouched. -/
def loadPresets (current : List Json) (raw : Option String)
    (parse : String → Option Json) : List Json :=
  match raw with
  | none => current
  | some r =>
    if r = "" then current
    else
      match parse r with
      | none => current
      | some (Json.arr elems) => elems
      | some _ => current

/-- The TargetSpec dimension invariant: an integer between 1 and 8000. -/
def dimOK (v : JSNum) : Prop :=
  ∃ n : ℤ, v = JSNum.finite (n : ℚ) ∧ 1 ≤ n ∧ n ≤ 8000

/-- A concrete application state used to exercise the model. -/
def demoState : AppState :=
  { imageLoaded := true
    srcImage := some { width := 640, height := 480 }
    srcWidth := 640
    srcHeight := 480
    srcName := "photo.heic"
    targetWidth := JSNum.finite 1200
    targetHeight := JSNum.finite 628
    targetFormat := "image/png"
    aspectMode := "fill"
    backgroundMode := "transparent"
    backgroundColor := "#ffffff"
    isPickingColor := false
    presetName := "Social"
    presets := [] }

theorem jsRound_intCast (n : ℤ) : jsRound (n : ℚ) = n := by
  unfold jsRound
  rw [Int.floor_int_add]
  norm_num

theorem clampDimension_pos (v : JSNum) : 1 ≤ clampDimension v := by
  cases v <;> simp [clampDimension]

theorem clampDimension_le (v : JSNum) : clampDimension v ≤ 8000 := by
  cases v <;> simp [clampDimension]

theorem clampDimension_int (n : ℤ) (h1 : 1 ≤ n) (h8 : n ≤ 8000) :
    clampDimension (JSNum.finite (n : ℚ)) = n := by
  simp [clampDimension, jsRound_intCast]
  omega

theorem clampDimension_clamp (v : JSNum) :
    clampDimension (JSNum.finite ((clampDimension v : ℤ) : ℚ)) = clampDimension v :=
  clampDimension_int _ (clampDimension_pos v) (clampDimension_le v)

theorem fit_scale_bounds (w h sw sh : ℚ) (hsw : 0 < sw) (hsh : 0 < sh) :
    sw * min (w / sw) (h / sh) ≤ w ∧ sh * min (w / sw) (h / sh) ≤ h ∧
      (sw * min (w / sw) (h / sh) = w ∨ sh * min (w / sw) (h / sh) = h) := by
  have hw : sw * (w / sw) = w := by
    rw [mul_comm, div_mul_cancel₀ _ hsw.ne']
  have hh : sh * (h / sh) = h := by
    rw [mul_comm, div_mul_cancel₀ _ hsh.ne']
  refine ⟨?_, ?_, ?_⟩
  · calc sw * min (w / sw) (h / sh) ≤ sw * (w / sw) :=
          mul_le_mul_of_nonneg_left (min_le_left _ _) hsw.le
      _ = w := hw
  · calc sh * min (w / sw) (h / sh) ≤ sh * (h / sh) :=
          mul_le_mul_of_nonneg_left (min_le_right _ _) hsh.le
      _ = h := hh
  · rcases min_choice (w / sw) (h / sh) with hmin | hmin
    · exact Or.inl (by rw [hmin, hw])
    · exact Or.inr (by rw [hmin, hh])

theorem fill_scale_bounds (w h sw sh : ℚ) (hsw : 0 < sw) (hsh : 0 < sh) :
    w ≤ sw * max (w / sw) (h / sh) ∧ h ≤ sh * max (w / sw) (h / sh) := by
  have hw : sw * (w / sw) = w := by
    rw [mul_comm, div_mul_cancel₀ _ hsw.ne']
  have hh : sh * (h / sh) = h := by
    rw [mul_comm, div_mul_cancel₀ _ hsh.ne']
  constructor
  · calc w = sw * (w / sw) := hw.symm
      _ ≤ sw * max (w / sw) (h / sh) :=
          mul_le_mul_of_nonneg_left (le_max_left _ _) hsw.le
  · calc h = sh * (h / sh) := hh.symm
      _ ≤ sh * max (w / sw) (h / sh) :=
          mul_le_mul_of_nonneg_left (le_max_right _ _) hsh.le

theorem countP_set_match {α : Type} (p : α → Bool) (x : α) (hx : p x = true) :
    ∀ (l : List α) (i : ℕ) (h : i < l.length), p (l.get ⟨i, h⟩) = true →
      (l.set i x).countP p = l.countP p := by
  intro l
  induction l with
  | nil => intro i h hget; simp at h
  | cons a t ih =>
    intro i h hget
    cases i with
    | zero =>
      simp only [List.get_eq_getElem, List.getElem_cons_zero] at hget
      simp [List.countP_cons, hx, hget]
    | succ j =>
      simp only [List.get_eq_getElem, List.getElem_cons_succ] at hget
      have hj : j < t.length := by simpa using h
      simp [List.countP_cons, ih j hj (by simpa using hget)]

theorem countP_pos_of_findIdx? {α : Type} (p : α → Bool) (l : List α) (i : ℕ)
    (h : l.findIdx? p = some i) : 0 < l.countP p := by
  rw [List.findIdx?_eq_some_iff_getElem] at h
  obtain ⟨hi, hp, _⟩ := h
  exact List.countP_pos_iff.mpr ⟨l[i], List.getElem_mem hi, hp⟩

theorem findIdx?_isSome_of_countP_pos {α : Type} (p : α → Bool) (l : List α)
    (h : 0 < l.countP p) : (l.findIdx? p).isSome = true := by
  rcases hf : l.findIdx? p with _ | i
  · rw [List.findIdx?_eq_none_iff] at hf
    have : l.countP p = 0 := List.countP_eq_zero.mpr (by simpa using hf)
    omega
  · rfl

theorem renderCanvas_newState (s : AppState) (dpr : ℚ) (fe : Bool) :
    (renderCanvas s dpr fe).newState =
      { s with
        targetWidth := JSNum.finite ((clampDimension
          (jsNumOr s.targetWidth (jsNumOr (JSNum.finite s.srcWidth) (JSNum.finite 1))) : ℤ) : ℚ)
        targetHeight := JSNum.finite ((clampDimension
          (jsNumOr s.targetHeight (jsNumOr (JSNum.finite s.srcHeight) (JSNum.finite 1))) : ℤ) : ℚ) } := by
  unfold renderCanvas
  rcases h : s.srcImage with _ | img
  · simp only [h]
  · simp only [h]
    by_cases hg : ((if s.srcWidth = 0 then img.width else s.srcWidth) = 0 ∨
        (if s.srcHeight = 0 then img.height else s.srcHeight) = 0)
    · rw [if_pos hg]
    · rw [if_neg hg]

theorem renderCanvas_draw_eq (s : AppState) (dpr : ℚ) (fe : Bool) (img : SrcImage)
    (himg : s.srcImage = some img)
    (hsw : (if s.srcWidth = 0 then img.width else s.srcWidth) ≠ 0)
    (hsh : (if s.srcHeight = 0 then img.height else s.srcHeight) ≠ 0) :
    (renderCanvas s dpr fe).draw =
      (let width := ((clampDimension
         (jsNumOr s.targetWidth (jsNumOr (JSNum.finite s.srcWidth) (JSNum.finite 1))) : ℤ) : ℚ)
       let height := ((clampDimension
         (jsNumOr s.targetHeight (jsNumOr (JSNum.finite s.srcHeight) (JSNum.finite 1))) : ℤ) : ℚ)
       let sw := if s.srcWidth = 0 then img.width else s.srcWidth
       let sh := if s.srcHeight = 0 then img.height else s.srcHeight
       let scale := if s.aspectMode = "fill"
         then max (width / sw) (height / sh) else min (width / sw) (height / sh)
       some { drawWidth := sw * scale, drawHeight := sh * scale,
              offsetX := (width - sw * scale) / 2,
              offsetY := (height - sh * scale) / 2 }) ∧
    (renderCanvas s dpr fe).borderDrawn = !fe := by
  unfold renderCanvas
  simp only [himg]
  have hguard : ¬((if s.srcWidth = 0 then img.width else s.srcWidth) = 0 ∨
      (if s.srcHeight = 0 then img.height else s.srcHeight) = 0) := by
    push_neg
    exact ⟨hsw, hsh⟩
  rw [if_neg hguard]
  constructor <;> rfl

theorem renderCanvas_no_image (s : AppState) (dpr : ℚ) (fe : Bool)
    (himg : s.srcImage = none) :
    (renderCanvas s dpr fe).draw = none ∧ (renderCanvas s dpr fe).borderDrawn = false := by
  unfold renderCanvas
  simp only [himg]
  constructor <;> trivial

/-- Claim C2: for every numeric input v the dimension clamp returns an
integer in [1, 8000]; it returns 1 when v is non-finite (NaN or ±Infinity);
and it returns exactly round(v) whenever round(v) already lies in [1, 8000]. -/
theorem clampDimension_range_round :
    (∀ v, 1 ≤ clampDimension v ∧ clampDimension v ≤ 8000) ∧
    (clampDimension JSNum.nan = 1 ∧ clampDimension JSNum.inf = 1 ∧
      clampDimension JSNum.ninf = 1) ∧
    (∀ q : ℚ, 1 ≤ jsRound q → jsRound q ≤ 8000 →
      clampDimension (JSNum.finite q) = jsRound q) := by
  refine ⟨fun v => ⟨clampDimension_pos v, clampDimension_le v⟩, ⟨rfl, rfl, rfl⟩, ?_⟩
  intro q h1 h8
  simp only [clampDimension]
  omega

theorem clampDimension_range_round_witness :
    (1 ≤ jsRound ((3 : ℤ) : ℚ) ∧ jsRound ((3 : ℤ) : ℚ) ≤ 8000) ∧
    clampDimension (JSNum.finite ((3 : ℤ) : ℚ)) = jsRound ((3 : ℤ) : ℚ) := by
  have h : jsRound ((3 : ℤ) : ℚ) = 3 := jsRound_intCast 3
  exact ⟨⟨by omega, by omega⟩,
    clampDimension_range_round.2.2 _ (by omega) (by omega)⟩

/-- Claim C7: loading presets never raises; when the stored value is absent
(or falsy), fails to parse, or parses to a non-array, the collection stays
the empty session-start collection; only a stored JSON array changes it. -/
theorem loadPresets_robust :
    (∀ parse, loadPresets [] none parse = []) ∧
    (∀ parse, loadPresets [] (some "") parse = []) ∧
    (∀ r parse, parse r = none → loadPresets [] (some r) parse = []) ∧
    (∀ r parse v, parse r = some v → (∀ elems, v ≠ Json.arr elems) →
      loadPresets [] (some r) parse = []) ∧
    (∀ r parse elems, r ≠ "" → parse r = some (Json.arr elems) →
      loadPresets [] (some r) parse = elems) := by
  refine ⟨fun parse => rfl, fun parse => rfl, ?_, ?_, ?_⟩
  · intro r parse hp
    by_cases hr : r = "" <;> simp [loadPresets, hr, hp]
  · intro r parse v hp hv
    by_cases hr : r = ""
    · simp [loadPresets, hr]
    · cases v with
      | arr elems => exact absurd rfl (hv elems)
      | null => simp [loadPresets, hr, hp]
      | bool b => simp [loadPresets, hr, hp]
      | num q => simp [loadPresets, hr, hp]
      | str t => simp [loadPresets, hr, hp]
      | obj fields => simp [loadPresets, hr, hp]
  · intro r parse elems hr hp
    simp [loadPresets, hr, hp]

theorem loadPresets_robust_witness :
    ((fun _ : String => (none : Option Json)) "garbage" = none) ∧
    loadPresets [] (some "garbage") (fun _ => none) = [] :=
  ⟨rfl, loadPresets_robust.2.2.1 "garbage" (fun _ => none) rfl⟩

/-- Claim C8: deletePreset removes exactly the presets whose name matches —
all of them, if duplicated — and keeps the rest in their relative order; a
name present in no preset leaves the collection unchanged, and the
operation is a total function, so it cannot raise. -/
theorem deletePreset_spec (s : AppState) (q : Preset) :
    (deletePreset s q).presets.Sublist s.presets ∧
    (∀ r, r ∈ (deletePreset s q).presets → r.name ≠ q.name) ∧
    (∀ r, r ∈ s.presets → r.name ≠ q.name → r ∈ (deletePreset s q).presets) ∧
    ((∀ r, r ∈ s.presets → r.name ≠ q.name) →
      (deletePreset s q).presets = s.presets) := by
  refine ⟨List.filter_sublist _, ?_, ?_, ?_⟩
  · intro r hr
    have h := List.of_mem_filter hr
    simpa [bne_iff_ne] using h
  · intro r hr hne
    exact List.mem_filter.mpr ⟨hr, by simpa [bne_iff_ne] using hne⟩
  · intro hall
    have h : (deletePreset s q).presets = s.presets.filter (fun p => p.name != q.name) := rfl
    rw [h, List.filter_eq_self]
    intro r hr
    simpa [bne_iff_ne] using hall r hr

theorem deletePreset_spec_witness :
    (∀ r, r ∈ ({ demoState with presets := [mkPreset demoState "Keep"] } : AppState).presets →
      r.name ≠ (mkPreset demoState "Social").name) ∧
    (deletePreset { demoState with presets := [mkPreset demoState "Keep"] }
        (mkPreset demoState "Social")).presets =
      ({ demoState with presets := [mkPreset demoState "Keep"] } : AppState).presets := by
  have hall : ∀ r, r ∈ ({ demoState with
      presets := [mkPreset demoState "Keep"] } : AppState).presets →
      r.name ≠ (mkPreset demoState "Social").name := by
    intro r hr
    rcases List.mem_singleton.mp hr with rfl
    decide
  exact ⟨hall, (deletePreset_spec _ _).2.2.2 hall⟩

/-- Claim C3: in FIT mode with positive source dimensions, the drawn image
measures srcW*min(width/srcW, height/srcH) by srcH*(the same scale), lies
within the clamped target rectangle, and at least one of the two drawn
dimensions equals its target dimension exactly. -/
theorem renderCanvas_fit_bounds (s : AppState) (dpr : ℚ) (fe : Bool) (img : SrcImage)
    (himg : s.srcImage = some img) (hmode : s.aspectMode = "fit")
    (hsw : 0 < s.srcWidth) (hsh : 0 < s.srcHeight) :
    ∃ (w h : ℤ) (g : DrawGeom),
      (renderCanvas s dpr fe).newState.targetWidth = JSNum.finite ((w : ℤ) : ℚ) ∧
      (renderCanvas s dpr fe).newState.targetHeight = JSNum.finite ((h : ℤ) : ℚ) ∧
      (renderCanvas s dpr fe).draw = some g ∧
      g.drawWidth = s.srcWidth * min (((w : ℤ) : ℚ) / s.srcWidth) (((h : ℤ) : ℚ) / s.srcHeight) ∧
      g.drawHeight = s.srcHeight * min (((w : ℤ) : ℚ) / s.srcWidth) (((h : ℤ) : ℚ) / s.srcHeight) ∧
      g.drawWidth ≤ ((w : ℤ) : ℚ) ∧ g.drawHeight ≤ ((h : ℤ) : ℚ) ∧
      (g.drawWidth = ((w : ℤ) : ℚ) ∨ g.drawHeight = ((h : ℤ) : ℚ)) := by
  have hsw0 : s.srcWidth ≠ 0 := ne_of_gt hsw
  have hsh0 : s.srcHeight ≠ 0 := ne_of_gt hsh
  have hswif : (if s.srcWidth = 0 then img.width else s.srcWidth) = s.srcWidth := if_neg hsw0
  have hshif : (if s.srcHeight = 0 then img.height else s.srcHeight) = s.srcHeight := if_neg hsh0
  obtain ⟨hdraw, hborder⟩ := renderCanvas_draw_eq s dpr fe img himg
    (by rw [hswif]; exact hsw0) (by rw [hshif]; exact hsh0)
  simp only [hswif, hshif, hmode] at hdraw
  rw [if_neg (by decide : ¬("fit" : String) = "fill")] at hdraw
  obtain ⟨h1, h2, h3⟩ := fit_scale_bounds
    ((clampDimension (jsNumOr s.targetWidth (jsNumOr (JSNum.finite s.srcWidth) (JSNum.finite 1))) : ℤ) : ℚ)
    ((clampDimension (jsNumOr s.targetHeight (jsNumOr (JSNum.finite s.srcHeight) (JSNum.finite 1))) : ℤ) : ℚ)
    s.srcWidth s.srcHeight hsw hsh
  refine ⟨_, _, _, ?_, ?_, hdraw, rfl, rfl, h1, h2, h3⟩
  · rw [renderCanvas_newState]
  · rw [renderCanvas_newState]

theorem renderCanvas_fit_bounds_witness :
    ({ demoState with aspectMode := "fit" } : AppState).srcImage =
      some { width := 640, height := 480 } ∧
    (∃ (w h : ℤ) (g : DrawGeom),
      (renderCanvas { demoState with aspectMode := "fit" } 2 false).newState.targetWidth =
        JSNum.finite ((w : ℤ) : ℚ) ∧
      (renderCanvas { demoState with aspectMode := "fit" } 2 false).newState.targetHeight =
        JSNum.finite ((h : ℤ) : ℚ) ∧
      (renderCanvas { demoState with aspectMode := "fit" } 2 false).draw = some g ∧
      g.drawWidth = 640 * min (((w : ℤ) : ℚ) / 640) (((h : ℤ) : ℚ) / 480) ∧
      g.drawHeight = 480 * min (((w : ℤ) : ℚ) / 640) (((h : ℤ) : ℚ) / 480) ∧
      g.drawWidth ≤ ((w : ℤ) : ℚ) ∧ g.drawHeight ≤ ((h : ℤ) : ℚ) ∧
      (g.drawWidth = ((w : ℤ) : ℚ) ∨ g.drawHeight = ((h : ℤ) : ℚ))) :=
  ⟨rfl, renderCanvas_fit_bounds { demoState with aspectMode := "fit" } 2 false
    { width := 640, height := 480 } rfl rfl (by decide) (by decide)⟩

/-- Claim C4: in FILL mode with positive source dimensions, the drawn image
covers the clamped target rectangle in both dimensions, and the centering
offsets split any overflow equally: the right/bottom margin equals the
left/top margin. -/
theorem renderCanvas_fill_covers (s : AppState) (dpr : ℚ) (fe : Bool) (img : SrcImage)
    (himg : s.srcImage = some img) (hmode : s.aspectMode = "fill")
    (hsw : 0 < s.srcWidth) (hsh : 0 < s.srcHeight) :
    ∃ (w h : ℤ) (g : DrawGeom),
      (renderCanvas s dpr fe).newState.targetWidth = JSNum.finite ((w : ℤ) : ℚ) ∧
      (renderCanvas s dpr fe).newState.targetHeight = JSNum.finite ((h : ℤ) : ℚ) ∧
      (renderCanvas s dpr fe).draw = some g ∧
      ((w : ℤ) : ℚ) ≤ g.drawWidth ∧ ((h : ℤ) : ℚ) ≤ g.drawHeight ∧
      g.offsetX = (((w : ℤ) : ℚ) - g.drawWidth) / 2 ∧
      g.offsetY = (((h : ℤ) : ℚ) - g.drawHeight) / 2 ∧
      ((w : ℤ) : ℚ) - g.drawWidth - g.offsetX = g.offsetX ∧
      ((h : ℤ) : ℚ) - g.drawHeight - g.offsetY = g.offsetY := by
  have hsw0 : s.srcWidth ≠ 0 := ne_of_gt hsw
  have hsh0 : s.srcHeight ≠ 0 := ne_of_gt hsh
  have hswif : (if s.srcWidth = 0 then img.width else s.srcWidth) = s.srcWidth := if_neg hsw0
  have hshif : (if s.srcHeight = 0 then img.height else s.srcHeight) = s.srcHeight := if_neg hsh0
  obtain ⟨hdraw, hborder⟩ := renderCanvas_draw_eq s dpr fe img himg
    (by rw [hswif]; exact hsw0) (by rw [hshif]; exact hsh0)
  simp only [hswif, hshif, hmode] at hdraw
  obtain ⟨h1, h2⟩ := fill_scale_bounds
    ((clampDimension (jsNumOr s.targetWidth (jsNumOr (JSNum.finite s.srcWidth) (JSNum.finite 1))) : ℤ) : ℚ)
    ((clampDimension (jsNumOr s.targetHeight (jsNumOr (JSNum.finite s.srcHeight) (JSNum.finite 1))) : ℤ) : ℚ)
    s.srcWidth s.srcHeight hsw hsh
  refine ⟨_, _, _, ?_, ?_, hdraw, h1, h2, rfl, rfl, by ring, by ring⟩
  · rw [renderCanvas_newState]
  · rw [renderCanvas_newState]

theorem renderCanvas_fill_covers_witness :
    demoState.srcImage = some { width := 640, height := 480 } ∧
    demoState.aspectMode = "fill" ∧
    (∃ (w h : ℤ) (g : DrawGeom),
      (renderCanvas demoState 2 false).newState.targetWidth = JSNum.finite ((w : ℤ) : ℚ) ∧
      (renderCanvas demoState 2 false).newState.targetHeight = JSNum.finite ((h : ℤ) : ℚ) ∧
      (renderCanvas demoState 2 false).draw = some g ∧
      ((w : ℤ) : ℚ) ≤ g.drawWidth ∧ ((h : ℤ) : ℚ) ≤ g.drawHeight ∧
      g.offsetX = (((w : ℤ) : ℚ) - g.drawWidth) / 2 ∧
      g.offsetY = (((h : ℤ) : ℚ) - g.drawHeight) / 2 ∧
      ((w : ℤ) : ℚ) - g.drawWidth - g.offsetX = g.offsetX ∧
      ((h : ℤ) : ℚ) - g.drawHeight - g.offsetY = g.offsetY) :=
  ⟨rfl, rfl, renderCanvas_fill_covers demoState 2 false
    { width := 640, height := 480 } rfl rfl (by decide) (by decide)⟩

theorem downloadImage_eq (s : AppState) (dpr : ℚ) (h : s.imageLoaded = true) :
    downloadImage s dpr = some
      { render := renderCanvas s dpr true
        exportW := clampDimension (renderCanvas s dpr true).newState.targetWidth
        exportH := clampDimension (renderCanvas s dpr true).newState.targetHeight
        filename :=
          (let mime := if s.targetFormat = "" then "image/png" else s.targetFormat
           let base := stripExtension (if s.srcName = "" then "image" else s.srcName)
           (if base = "" then "image" else base) ++ "-" ++
             toString (clampDimension (renderCanvas s dpr true).newState.targetWidth) ++ "x" ++
             toString (clampDimension (renderCanvas s dpr true).newState.targetHeight) ++ "." ++
             formatExtension mime)
        mime := if s.targetFormat = "" then "image/png" else s.targetFormat
        quality :=
          if (if s.targetFormat = "" then "image/png" else s.targetFormat) = "image/jpeg" ∨
             (if s.targetFormat = "" then "image/png" else s.targetFormat) = "image/jpg" ∨
             (if s.targetFormat = "" then "image/png" else s.targetFormat) = "image/webp"
          then some (92 / 100 : ℚ) else none } := by
  unfold downloadImage
  rw [if_pos h]

theorem renderCanvas_borderDrawn_export (s : AppState) (dpr : ℚ) :
    (renderCanvas s dpr true).borderDrawn = false := by
  rcases h : s.srcImage with _ | img
  · exact (renderCanvas_no_image s dpr true h).2
  · by_cases hg : ((if s.srcWidth = 0 then img.width else s.srcWidth) = 0 ∨
        (if s.srcHeight = 0 then img.height else s.srcHeight) = 0)
    · unfold renderCanvas
      simp only [h]
      rw [if_pos hg]
    · push_neg at hg
      exact (renderCanvas_draw_eq s dpr true img h hg.1 hg.2).2

/-- Claim C6: the export path sizes its surface to exactly the clamped
target width and height in physical pixels — an expression independent of
the pixel density — and the 1px preview border is stroked only on preview
renders (forExport false with an image drawn), never on the export render
handed to the encoder. -/
theorem downloadImage_export_exact :
    (∀ s dpr, s.imageLoaded = true → ∃ er, downloadImage s dpr = some er ∧
      er.exportW = clampDimension
        (jsNumOr s.targetWidth (jsNumOr (JSNum.finite s.srcWidth) (JSNum.finite 1))) ∧
      er.exportH = clampDimension
        (jsNumOr s.targetHeight (jsNumOr (JSNum.finite s.srcHeight) (JSNum.finite 1))) ∧
      er.render.borderDrawn = false) ∧
    (∀ s dpr, (renderCanvas s dpr true).borderDrawn = false) ∧
    (∀ s dpr img, s.srcImage = some img →
      (if s.srcWidth = 0 then img.width else s.srcWidth) ≠ 0 →
      (if s.srcHeight = 0 then img.height else s.srcHeight) ≠ 0 →
      (renderCanvas s dpr false).borderDrawn = true) := by
  refine ⟨?_, renderCanvas_borderDrawn_export, ?_⟩
  · intro s dpr h
    refine ⟨_, downloadImage_eq s dpr h, ?_, ?_, renderCanvas_borderDrawn_export s dpr⟩
    · show clampDimension (renderCanvas s dpr true).newState.targetWidth = _
      rw [renderCanvas_newState]
      exact clampDimension_clamp _
    · show clampDimension (renderCanvas s dpr true).newState.targetHeight = _
      rw [renderCanvas_newState]
      exact clampDimension_clamp _
  · intro s dpr img himg hsw hsh
    exact (renderCanvas_draw_eq s dpr false img himg hsw hsh).2

theorem downloadImage_export_exact_witness :
    ({ demoState with
        targetWidth := JSNum.finite 400, targetHeight := JSNum.finite 300 } : AppState).imageLoaded = true ∧
    (∃ er, downloadImage { demoState with
        targetWidth := JSNum.finite 400, targetHeight := JSNum.finite 300 } 2 = some er ∧
      er.exportW = 400 ∧ er.exportH = 300 ∧ er.render.borderDrawn = false) := by
  refine ⟨rfl, ?_⟩
  obtain ⟨er, h1, h2, h3, h4⟩ := downloadImage_export_exact.1
    { demoState with
      targetWidth := JSNum.finite 400, targetHeight := JSNum.finite 300 } 2 rfl
  refine ⟨er, h1, ?_, ?_, h4⟩
  · rw [h2]
    with_unfolding_all decide
  · rw [h3]
    with_unfolding_all decide

/-- Claim C9: the download filename is base-widthxheight.ext where the base
is the source name with its final extension stripped (defaulting to image
when absent or empty), width and height are the clamped target dimensions,
and the extension maps PNG to png, JPEG to jpg, WEBP to webp and anything
else to img; source photo.heic at 800x420 as PNG gives photo-800x420.png. -/
theorem downloadImage_filename_spec :
    (∀ s dpr, s.imageLoaded = true → ∃ er, downloadImage s dpr = some er ∧
      er.filename =
        (let base := stripExtension (if s.srcName = "" then "image" else s.srcName)
         (if base = "" then "image" else base)) ++ "-" ++ toString er.exportW ++ "x" ++
          toString er.exportH ++ "." ++
          formatExtension (if s.targetFormat = "" then "image/png" else s.targetFormat)) ∧
    formatExtension "image/png" = "png" ∧
    formatExtension "image/jpeg" = "jpg" ∧
    formatExtension "image/webp" = "webp" ∧
    (∀ f, f ≠ "image/png" → f ≠ "image/jpeg" → f ≠ "image/webp" →
      formatExtension f = "img") ∧
    (∃ er, downloadImage { demoState with
        targetWidth := JSNum.finite 800, targetHeight := JSNum.finite 420 } 2 = some er ∧
      er.filename = "photo-800x420.png") := by
  refine ⟨?_, rfl, rfl, rfl, ?_, ?_⟩
  · intro s dpr h
    exact ⟨_, downloadImage_eq s dpr h, rfl⟩
  · intro f h1 h2 h3
    simp [formatExtension, h1, h2, h3]
  · refine ⟨_, downloadImage_eq { demoState with
      targetWidth := JSNum.finite 800, targetHeight := JSNum.finite 420 } 2 rfl, ?_⟩
    with_unfolding_all decide

theorem downloadImage_filename_spec_witness :
    ("image/heic" : String) ≠ "image/png" ∧ ("image/heic" : String) ≠ "image/jpeg" ∧
    ("image/heic" : String) ≠ "image/webp" ∧ formatExtension "image/heic" = "img" :=
  ⟨by decide, by decide, by decide,
    downloadImage_filename_spec.2.2.2.2.1 "image/heic" (by decide) (by decide) (by decide)⟩

/-- Claim C1 counterexample: fit mode is not among the fields savePreset
stores and applyPreset assigns, so the save/apply round trip does not
reproduce it.  Saving from a state whose fit mode is "fill" and applying
the saved preset after the fit mode changed to "fit" leaves "fit". -/
theorem preset_roundtrip_fitMode_cex :
    demoState.aspectMode = "fill" ∧
    ((savePreset demoState).presets.head?).isSome = true ∧
    (applyPreset { savePreset demoState with aspectMode := "fit" }
      (savePreset demoState).presets.head?).aspectMode ≠ demoState.aspectMode := by
  with_unfolding_all decide

/-- Claim C1 (amended): for a valid spec, save then apply reproduces width,
height, format, background mode and background color exactly — the stored
non-empty fields are never overridden by the schema defaults — while the
fit mode is not stored in the preset at all: applyPreset leaves the aspect
mode of the state it runs in unchanged. -/
theorem savePreset_applyPreset_roundtrip (s t : AppState)
    (hname : s.presetName.trim ≠ "")
    (hw : dimOK s.targetWidth) (hh : dimOK s.targetHeight)
    (hf : s.targetFormat ≠ "") (hb : s.backgroundMode ≠ "")
    (hc : s.backgroundColor ≠ "") :
    ∃ (i : ℕ) (p : Preset), ((savePreset s).presets)[i]? = some p ∧
      (applyPreset t (some p)).targetWidth = s.targetWidth ∧
      (applyPreset t (some p)).targetHeight = s.targetHeight ∧
      (applyPreset t (some p)).targetFormat = s.targetFormat ∧
      (applyPreset t (some p)).backgroundMode = s.backgroundMode ∧
      (applyPreset t (some p)).backgroundColor = s.backgroundColor ∧
      (applyPreset t (some p)).aspectMode = t.aspectMode := by
  obtain ⟨n, hn, hn1, hn8⟩ := hw
  obtain ⟨m, hm, hm1, hm8⟩ := hh
  have hPw : clampDimension s.targetWidth = n := by
    rw [hn]; exact clampDimension_int n hn1 hn8
  have hPh : clampDimension s.targetHeight = m := by
    rw [hm]; exact clampDimension_int m hm1 hm8
  have happly : (applyPreset t (some (mkPreset s s.presetName.trim))).targetWidth = s.targetWidth ∧
      (applyPreset t (some (mkPreset s s.presetName.trim))).targetHeight = s.targetHeight ∧
      (applyPreset t (some (mkPreset s s.presetName.trim))).targetFormat = s.targetFormat ∧
      (applyPreset t (some (mkPreset s s.presetName.trim))).backgroundMode = s.backgroundMode ∧
      (applyPreset t (some (mkPreset s s.presetName.trim))).backgroundColor = s.backgroundColor ∧
      (applyPreset t (some (mkPreset s s.presetName.trim))).aspectMode = t.aspectMode := by
    refine ⟨?_, ?_, ?_, ?_, ?_, rfl⟩
    · show JSNum.finite ((clampDimension (propNum (some (JSNum.finite
        ((clampDimension s.targetWidth : ℤ) : ℚ)))) : ℤ) : ℚ) = s.targetWidth
      rw [show propNum (some (JSNum.finite ((clampDimension s.targetWidth : ℤ) : ℚ)))
          = JSNum.finite ((clampDimension s.targetWidth : ℤ) : ℚ) from rfl]
      rw [clampDimension_clamp, hPw, hn]
    · show JSNum.finite ((clampDimension (propNum (some (JSNum.finite
        ((clampDimension s.targetHeight : ℤ) : ℚ)))) : ℤ) : ℚ) = s.targetHeight
      rw [show propNum (some (JSNum.finite ((clampDimension s.targetHeight : ℤ) : ℚ)))
          = JSNum.finite ((clampDimension s.targetHeight : ℤ) : ℚ) from rfl]
      rw [clampDimension_clamp, hPh, hm]
    · show jsStrOr (some s.targetFormat) "image/png" = s.targetFormat
      simp [jsStrOr, hf]
    · show jsStrOr (some s.backgroundMode) "transparent" = s.backgroundMode
      simp [jsStrOr, hb]
    · show jsStrOr (some s.backgroundColor) "#ffffff" = s.backgroundColor
      simp [jsStrOr, hc]
  have hsave : (savePreset s).presets =
      (match s.presets.findIdx? (fun p => p.name == s.presetName.trim) with
        | some i => s.presets.set i (mkPreset s s.presetName.trim)
        | none => s.presets ++ [mkPreset s s.presetName.trim]) := by
    unfold savePreset
    rw [if_neg hname]
  rcases hfind : s.presets.findIdx? (fun p => p.name == s.presetName.trim) with _ | i
  · refine ⟨s.presets.length, mkPreset s s.presetName.trim, ?_, happly⟩
    rw [hsave, hfind]
    exact List.getElem?_concat_length _ _
  · obtain ⟨hi, _, _⟩ := List.findIdx?_eq_some_iff_getElem.mp hfind
    refine ⟨i, mkPreset s s.presetName.trim, ?_, happly⟩
    rw [hsave, hfind]
    exact List.getElem?_set_self hi

theorem savePreset_applyPreset_roundtrip_witness :
    demoState.presetName.trim ≠ "" ∧ demoState.targetFormat ≠ "" ∧
    (∃ (i : ℕ) (p : Preset), ((savePreset demoState).presets)[i]? = some p ∧
      (applyPreset demoState (some p)).targetWidth = demoState.targetWidth ∧
      (applyPreset demoState (some p)).targetHeight = demoState.targetHeight ∧
      (applyPreset demoState (some p)).targetFormat = demoState.targetFormat ∧
      (applyPreset demoState (some p)).backgroundMode = demoState.backgroundMode ∧
      (applyPreset demoState (some p)).backgroundColor = demoState.backgroundColor ∧
      (applyPreset demoState (some p)).aspectMode = demoState.aspectMode) := by
  refine ⟨by with_unfolding_all decide, by decide, ?_⟩
  exact savePreset_applyPreset_roundtrip demoState demoState (by with_unfolding_all decide)
    ⟨1200, by decide, by decide, by decide⟩ ⟨628, by decide, by decide, by decide⟩
    (by decide) (by decide) (by decide)

/-- Claim C5: savePreset is a no-op for an empty trimmed name; a non-empty
name replaces the first preset with that exact name in place — length and
all other entries unchanged — or appends when the name is absent; saving
"Social" twice, starting from a collection holding at most one "Social"
entry, leaves exactly one "Social" entry, holding the second spec, at the
position the first save gave it. -/
theorem savePreset_upsert (s : AppState) :
    (s.presetName.trim = "" → (savePreset s).presets = s.presets) ∧
    (∀ i : ℕ, s.presetName.trim ≠ "" →
      s.presets.findIdx? (fun p => p.name == s.presetName.trim) = some i →
      (savePreset s).presets.length = s.presets.length ∧
      ((savePreset s).presets)[i]? = some (mkPreset s s.presetName.trim) ∧
      ∀ j : ℕ, j ≠ i → ((savePreset s).presets)[j]? = s.presets[j]?) ∧
    (s.presetName.trim ≠ "" →
      s.presets.findIdx? (fun p => p.name == s.presetName.trim) = none →
      (savePreset s).presets = s.presets ++ [mkPreset s s.presetName.trim]) ∧
    (∀ t : AppState, s.presetName.trim = "Social" → t.presetName.trim = "Social" →
      t.presets = (savePreset s).presets →
      s.presets.countP (fun p => p.name == "Social") ≤ 1 →
      ∃ i : ℕ, (savePreset s).presets.findIdx? (fun p => p.name == "Social") = some i ∧
        ((savePreset t).presets)[i]? = some (mkPreset t "Social") ∧
        (savePreset t).presets.countP (fun p => p.name == "Social") = 1) := by
  have hsave : ∀ u : AppState, u.presetName.trim ≠ "" →
      (savePreset u).presets =
        (match u.presets.findIdx? (fun p => p.name == u.presetName.trim) with
          | some i => u.presets.set i (mkPreset u u.presetName.trim)
          | none => u.presets ++ [mkPreset u u.presetName.trim]) := by
    intro u hu
    unfold savePreset
    rw [if_neg hu]
  refine ⟨?_, ?_, ?_, ?_⟩
  · intro h
    unfold savePreset
    rw [if_pos h]
  · intro i hne hfind
    obtain ⟨hi, hpi, _⟩ := List.findIdx?_eq_some_iff_getElem.mp hfind
    rw [hsave s hne, hfind]
    exact ⟨by simp, List.getElem?_set_self hi,
      fun j hj => List.getElem?_set_ne (Ne.symm hj)⟩
  · intro hne hfind
    rw [hsave s hne, hfind]
  · intro t hsoc htsoc htp hcount
    have hne : s.presetName.trim ≠ "" := by rw [hsoc]; decide
    have htne : t.presetName.trim ≠ "" := by rw [htsoc]; decide
    have hl1 : (savePreset s).presets =
        (match s.presets.findIdx? (fun p => p.name == "Social") with
          | some i => s.presets.set i (mkPreset s "Social")
          | none => s.presets ++ [mkPreset s "Social"]) := by
      rw [hsave s hne, hsoc]
    have hcount1 : (savePreset s).presets.countP (fun p => p.name == "Social") = 1 := by
      rw [hl1]
      rcases hfind : s.presets.findIdx? (fun p => p.name == "Social") with _ | i
      · have hzero : s.presets.countP (fun p => p.name == "Social") = 0 :=
          List.countP_eq_zero.mpr (by
            intro a ha
            have h := List.findIdx?_eq_none_iff.mp hfind a ha
            simp [h])
        simp [hfind, hzero, mkPreset]
      · obtain ⟨hi, hpi, _⟩ := List.findIdx?_eq_some_iff_getElem.mp hfind
        have heq := countP_set_match (fun p => p.name == "Social") (mkPreset s "Social")
          (by simp [mkPreset]) s.presets i hi (by simpa [List.get_eq_getElem] using hpi)
        simp only [hfind]
        rw [heq]
        have hpos : 0 < s.presets.countP (fun p => p.name == "Social") :=
          countP_pos_of_findIdx? _ _ _ hfind
        omega
    have hpos1 : 0 < (savePreset s).presets.countP (fun p => p.name == "Social") := by
      omega
    have hsome := findIdx?_isSome_of_countP_pos
      (fun p => p.name == "Social") (savePreset s).presets hpos1
    rcases hfind2 : (savePreset s).presets.findIdx? (fun p => p.name == "Social") with _ | i
    · rw [hfind2] at hsome
      simp at hsome
    · obtain ⟨hi2, hpi2, _⟩ := List.findIdx?_eq_some_iff_getElem.mp hfind2
      have hl2 : (savePreset t).presets =
          (savePreset s).presets.set i (mkPreset t "Social") := by
        rw [hsave t htne, htsoc, htp, hfind2]
      refine ⟨i, hfind2, ?_, ?_⟩
      · rw [hl2]
        exact List.getElem?_set_self hi2
      · rw [hl2]
        have heq := countP_set_match (fun p => p.name == "Social") (mkPreset t "Social")
          (by simp [mkPreset]) (savePreset s).presets i hi2
          (by simpa [List.get_eq_getElem] using hpi2)
        rw [heq, hcount1]

set_option maxRecDepth 8000 in
theorem savePreset_upsert_witness :
    demoState.presetName.trim ≠ "" ∧
    demoState.presets.findIdx? (fun p => p.name == demoState.presetName.trim) = none ∧
    (savePreset demoState).presets =
      demoState.presets ++ [mkPreset demoState demoState.presetName.trim] := by
  refine ⟨by with_unfolding_all decide, rfl, ?_⟩
  exact (savePreset_upsert demoState).2.2.1 (by with_unfolding_all decide) rfl

/-- Claim C10: every write to the target dimensions keeps them integers in
[1, 8000]: clampDimension always lands in range, renderCanvas writes the
clamped values back into the spec, savePreset stores only clamped
dimensions in the presets it adds, and applyPreset clamps whatever the
stored preset holds — absent, non-finite, zero, negative or oversized
values included. -/
theorem target_dims_invariant :
    (∀ v, 1 ≤ clampDimension v ∧ clampDimension v ≤ 8000) ∧
    (∀ s dpr fe, dimOK (renderCanvas s dpr fe).newState.targetWidth ∧
      dimOK (renderCanvas s dpr fe).newState.targetHeight) ∧
    (∀ s r, r ∈ (savePreset s).presets → r ∈ s.presets ∨
      ((∃ n : ℤ, r.width = some (JSNum.finite (n : ℚ)) ∧ 1 ≤ n ∧ n ≤ 8000) ∧
       (∃ m : ℤ, r.height = some (JSNum.finite (m : ℚ)) ∧ 1 ≤ m ∧ m ≤ 8000))) ∧
    (∀ s p, dimOK (applyPreset s (some p)).targetWidth ∧
      dimOK (applyPreset s (some p)).targetHeight) := by
  refine ⟨fun v => ⟨clampDimension_pos v, clampDimension_le v⟩, ?_, ?_, ?_⟩
  · intro s dpr fe
    constructor
    · exact ⟨clampDimension (jsNumOr s.targetWidth
          (jsNumOr (JSNum.finite s.srcWidth) (JSNum.finite 1))),
        by rw [renderCanvas_newState], clampDimension_pos _, clampDimension_le _⟩
    · exact ⟨clampDimension (jsNumOr s.targetHeight
          (jsNumOr (JSNum.finite s.srcHeight) (JSNum.finite 1))),
        by rw [renderCanvas_newState], clampDimension_pos _, clampDimension_le _⟩
  · intro s r hr
    by_cases hname : s.presetName.trim = ""
    · left
      unfold savePreset at hr
      rw [if_pos hname] at hr
      exact hr
    · have hmk : ((∃ n : ℤ, (mkPreset s s.presetName.trim).width =
            some (JSNum.finite (n : ℚ)) ∧ 1 ≤ n ∧ n ≤ 8000) ∧
          (∃ m : ℤ, (mkPreset s s.presetName.trim).height =
            some (JSNum.finite (m : ℚ)) ∧ 1 ≤ m ∧ m ≤ 8000)) :=
        ⟨⟨clampDimension s.targetWidth, rfl, clampDimension_pos _, clampDimension_le _⟩,
         ⟨clampDimension s.targetHeight, rfl, clampDimension_pos _, clampDimension_le _⟩⟩
      unfold savePreset at hr
      rw [if_neg hname] at hr
      rcases hfind : s.presets.findIdx? (fun p => p.name == s.presetName.trim) with _ | i <;>
        rw [hfind] at hr
      · rcases List.mem_append.mp hr with h | h
        · exact Or.inl h
        · rcases List.mem_singleton.mp h with rfl
          exact Or.inr hmk
      · rcases List.mem_or_eq_of_mem_set hr with h | h
        · exact Or.inl h
        · rcases h with rfl
          exact Or.inr hmk
  · intro s p
    exact ⟨⟨_, rfl, clampDimension_pos _, clampDimension_le _⟩,
      ⟨_, rfl, clampDimension_pos _, clampDimension_le _⟩⟩

set_option maxRecDepth 8000 in
theorem target_dims_invariant_witness :
    (mkPreset demoState "Social") ∈ (savePreset demoState).presets ∧
    ((mkPreset demoState "Social") ∈ demoState.presets ∨
      ((∃ n : ℤ, (mkPreset demoState "Social").width =
          some (JSNum.finite (n : ℚ)) ∧ 1 ≤ n ∧ n ≤ 8000) ∧
       (∃ m : ℤ, (mkPreset demoState "Social").height =
          some (JSNum.finite (m : ℚ)) ∧ 1 ≤ m ∧ m ≤ 8000))) := by
  have hmem : (mkPreset demoState "Social") ∈ (savePreset demoState).presets := by
    with_unfolding_all decide
  exact ⟨hmem, target_dims_invariant.2.2.1 demoState _ hmem⟩
